import Mathlib

/-!
Shallow embedding of the semantic-analysis core of the Sway compiler fork
under verification: the struct declaration data model
(`sway-core/src/language/ty/declaration/struct.rs`), the struct
instantiation type checker
(`sway-core/src/semantic_analysis/ast_node/expression/typed_expression/struct_instantiation.rs`),
and program assembly (`sway-core/src/semantic_analysis/program.rs`).

Modelling conventions:
- Machine integers (`u64`, `usize`) are modelled as `Nat`; all indices involved
  are list positions, far below any overflow boundary.
- `Span` is an opaque token (`Nat`); `Ident` is a name string together with its
  span.  Rust `Ident` equality, ordering and hashing act on the name string
  only, which `identEq` mirrors.
- The type interner is content addressed in the model: a `TypeId` is identified
  with the canonical descriptor it resolves to (the spec defines handle
  equality as equality of resolved descriptors), so `type_engine.insert`
  is the identity and engine-aware comparison of type arguments is descriptor
  equality.  The `Engines` context is kept as an explicit parameter to mirror
  the source signatures; in the model it carries the declaration interner.
- Hashing is modelled by the token stream a value feeds into the hasher:
  `hash` functions return the `List Nat` of fed primitive tokens, and two
  values hash equal iff they feed identical streams.
- The diagnostic `Handler` is modelled by the list of emitted diagnostics,
  in emission order; fallible steps return `Except Unit`.
-/

namespace Sway

/-- Source span, modelled as an opaque token. -/
abbrev Span := Nat

/-- Identifier: a name together with its span.  Rust `Ident` comparison and
hashing ignore the span, see `identEq`. -/
structure Ident where
  name : String
  span : Span
deriving DecidableEq, Repr

/-- Equality of identifiers as used by the source (`==` on `Ident` compares
the name string only, never the span). -/
def identEq (a b : Ident) : Bool :=
  a.name == b.name

/-- Creates an identifier carrying a dummy span, mirroring
`Ident::new_no_span`. -/
def Ident.new_no_span (s : String) : Ident :=
  ⟨s, 0⟩

/-- Field and declaration visibility. -/
inductive Visibility
  | Private
  | Public
deriving DecidableEq, Repr

/-- Canonicalized type descriptor.  Only the descriptors the modelled code
constructs or inspects are represented; `Unit` stands for the empty tuple
descriptor `TypeInfo::Tuple(vec![])`, and `StructTy r` for a struct type whose
declaration lives at slot `r` of the declaration interner. -/
inductive TypeInfo
  | ErrorRecovery
  | StringSlice
  | Boolean
  | Unit
  | Custom (name : String)
  | StructTy (ref : Nat)
deriving DecidableEq, Repr

/-- A type argument: a type handle (collapsed to its descriptor) plus a span.
Engine-aware comparison and hashing ignore the span. -/
structure TypeArgument where
  type_id : TypeInfo
  span : Span
deriving DecidableEq, Repr

/-- Attribute metadata, opaque payload (non-semantic by the spec). -/
abbrev AttributesMap := List Nat

/-- Generic type parameter of a struct declaration.

Modelled from the spec: the `TypeParameter` comparison code is not among the
provided sources; per the spec, engine-aware comparison resolves type handles
and ignores spans, so a parameter is modelled by its name and resolved type
descriptor. -/
structure TypeParameter where
  name : Ident
  type_id : TypeInfo
deriving DecidableEq, Repr

/-- Call path: module prefixes, final name, absolute flag. -/
structure CallPath where
  prefixes : List Ident
  suffix : Ident
  is_absolute : Bool
deriving DecidableEq, Repr

/-- Typed struct field (`TyStructField`). -/
structure TyStructField where
  visibility : Visibility
  name : Ident
  span : Span
  type_argument : TypeArgument
  attributes : AttributesMap
deriving DecidableEq, Repr

/-- Typed struct declaration (`TyStructDecl`). -/
structure TyStructDecl where
  call_path : CallPath
  fields : List TyStructField
  type_parameters : List TypeParameter
  visibility : Visibility
  span : Span
  attributes : AttributesMap
deriving DecidableEq, Repr

/-- Engines context: in the model it owns the declaration interner slab for
struct declarations.  It is threaded explicitly, as in the source, through
every engine-aware comparison. -/
structure Engines where
  structs : List TyStructDecl

/-- Fallback declaration used to totalize interner lookup in the model. -/
def dfltStructDecl : TyStructDecl :=
  ⟨⟨[], ⟨"", 0⟩, false⟩, [], [], Visibility.Public, 0, []⟩

/-- Fallback field used to totalize list indexing in theorem statements. -/
def dfltField : TyStructField :=
  ⟨Visibility.Public, ⟨"", 0⟩, 0, ⟨TypeInfo.ErrorRecovery, 0⟩, []⟩

/-- Declaration interner lookup (`decl_engine.get_struct`). -/
def get_struct (engines : Engines) (struct_ref : Nat) : TyStructDecl :=
  engines.structs.getD struct_ref dfltStructDecl

/-- Pointwise engine-aware list equality (the `Vec` lifting of
`PartialEqWithEngines`). -/
def listEqWith (f : α → α → Bool) : List α → List α → Bool
  | [], [] => true
  | a :: as, b :: bs => f a b && listEqWith f as bs
  | _, _ => false

/-- Sequential hashing of a list: concatenation of element token streams. -/
def hashListWith (f : α → List Nat) (xs : List α) : List Nat :=
  (xs.map f).flatten

/-- Lexicographic engine-aware list comparison (the `Vec` lifting of
`OrdWithEngines`). -/
def cmpListWith (f : α → α → Ordering) : List α → List α → Ordering
  | [], [] => .eq
  | [], _ :: _ => .lt
  | _ :: _, [] => .gt
  | a :: as, b :: bs => (f a b).then (cmpListWith f as bs)

/-- Numeric comparison used by the model comparators. -/
def cmpNat (a b : Nat) : Ordering :=
  if a < b then .lt else if b < a then .gt else .eq

/-- String comparison used by the model comparators. -/
def cmpStr (a b : String) : Ordering :=
  if a < b then .lt else if b < a then .gt else .eq

/-- Injective numeric key of a type descriptor, for ordering. -/
def TypeInfo.keyN : TypeInfo → Nat
  | .ErrorRecovery => 0
  | .StringSlice => 1
  | .Boolean => 2
  | .Unit => 3
  | .Custom _ => 4
  | .StructTy r => 5 + r

/-- String payload of a type descriptor, for ordering. -/
def TypeInfo.keyS : TypeInfo → String
  | .Custom s => s
  | _ => ""

/-- Ordering on canonical type descriptors. -/
def cmpTypeInfo (a b : TypeInfo) : Ordering :=
  (cmpNat a.keyN b.keyN).then (cmpStr a.keyS b.keyS)

/-- Token stream of a hashed string. -/
def strToks (s : String) : List Nat :=
  s.length :: s.toList.map Char.toNat

/-- Token stream of a hashed identifier (`Ident` hashes its name only). -/
def hashIdent (i : Ident) : List Nat :=
  strToks i.name

/-- Token stream of a hashed visibility tag. -/
def hashVisibility : Visibility → List Nat
  | .Private => [0]
  | .Public => [1]

/-- Token stream of a hashed type descriptor. -/
def hashTypeInfo : TypeInfo → List Nat
  | .ErrorRecovery => [0]
  | .StringSlice => [1]
  | .Boolean => [2]
  | .Unit => [3]
  | .Custom s => 4 :: strToks s
  | .StructTy r => [5, r]

/-- Engine-aware equality of type arguments: equality of resolved descriptors
(spans excluded). -/
def TypeArgument.eqWithEngines (_e : Engines) (a b : TypeArgument) : Bool :=
  a.type_id == b.type_id

/-- Engine-aware hash of a type argument: the resolved descriptor stream. -/
def TypeArgument.hashWithEngines (_e : Engines) (a : TypeArgument) : List Nat :=
  hashTypeInfo a.type_id

/-- Engine-aware ordering of type arguments: by resolved descriptor. -/
def TypeArgument.cmpWithEngines (_e : Engines) (a b : TypeArgument) : Ordering :=
  cmpTypeInfo a.type_id b.type_id

/-- Engine-aware equality of type parameters (see `TypeParameter`). -/
def TypeParameter.eqWithEngines (_e : Engines) (a b : TypeParameter) : Bool :=
  identEq a.name b.name && (a.type_id == b.type_id)

/-- Engine-aware hash of a type parameter (see `TypeParameter`). -/
def TypeParameter.hashWithEngines (_e : Engines) (a : TypeParameter) : List Nat :=
  hashIdent a.name ++ hashTypeInfo a.type_id

/-- Engine-aware equality of struct fields, from
`impl PartialEqWithEngines for TyStructField`: name and type argument only. -/
def TyStructField.eqWithEngines (e : Engines) (a b : TyStructField) : Bool :=
  identEq a.name b.name && TypeArgument.eqWithEngines e a.type_argument b.type_argument

/-- Engine-aware hash of a struct field, from
`impl HashWithEngines for TyStructField`: visibility, name and type argument;
span and attributes are not hashed. -/
def TyStructField.hashWithEngines (e : Engines) (a : TyStructField) : List Nat :=
  hashVisibility a.visibility ++ hashIdent a.name
    ++ TypeArgument.hashWithEngines e a.type_argument

/-- Engine-aware ordering of struct fields, from
`impl OrdWithEngines for TyStructField`: by name, then by type argument;
visibility, span and attributes are not compared. -/
def TyStructField.cmpWithEngines (e : Engines) (a b : TyStructField) : Ordering :=
  (cmpStr a.name.name b.name.name).then
    (TypeArgument.cmpWithEngines e a.type_argument b.type_argument)

/-- Engine-aware equality of struct declarations, from
`impl PartialEqWithEngines for TyStructDecl`: call-path suffix, fields,
type parameters and visibility; span and attributes excluded. -/
def TyStructDecl.eqWithEngines (e : Engines) (a b : TyStructDecl) : Bool :=
  identEq a.call_path.suffix b.call_path.suffix
    && listEqWith (TyStructField.eqWithEngines e) a.fields b.fields
    && listEqWith (TypeParameter.eqWithEngines e) a.type_parameters b.type_parameters
    && (a.visibility == b.visibility)

/-- Engine-aware hash of a struct declaration, from
`impl HashWithEngines for TyStructDecl`: suffix, fields, type parameters and
visibility; span and attributes are not hashed. -/
def TyStructDecl.hashWithEngines (e : Engines) (a : TyStructDecl) : List Nat :=
  hashIdent a.call_path.suffix
    ++ hashListWith (TyStructField.hashWithEngines e) a.fields
    ++ hashListWith (TypeParameter.hashWithEngines e) a.type_parameters
    ++ hashVisibility a.visibility

/-- Engine-aware ordering of struct declarations.

Modelled from the spec: an `OrdWithEngines` impl for `TyStructDecl` is not
among the provided sources; the spec only requires the ordering to take the
interner as context and to exclude span and attributes.  It is modelled as
the lexicographic comparison of the same components equality compares. -/
def TyStructDecl.cmpWithEngines (e : Engines) (a b : TyStructDecl) : Ordering :=
  ((cmpStr a.call_path.suffix.name b.call_path.suffix.name).then
    (cmpListWith (TyStructField.cmpWithEngines e) a.fields b.fields)).then
    ((cmpListWith (fun x y => (cmpStr x.name.name y.name.name).then
        (cmpTypeInfo x.type_id y.type_id)) a.type_parameters b.type_parameters).then
      (cmpNat (match a.visibility with | .Private => 0 | .Public => 1)
        (match b.visibility with | .Private => 0 | .Public => 1)))

/-- Returns true if the field is private (`TyStructField::is_private`). -/
def TyStructField.is_private (f : TyStructField) : Bool :=
  f.visibility == Visibility.Private

/-- Returns true if the field is public (`TyStructField::is_public`). -/
def TyStructField.is_public (f : TyStructField) : Bool :=
  f.visibility == Visibility.Public

/-- Fields available in the given access context
(`TyStructDecl::available_fields`). -/
def TyStructDecl.available_fields (d : TyStructDecl) (is_public_struct_access : Bool) :
    List TyStructField :=
  d.fields.filter fun field =>
    !is_public_struct_access || (is_public_struct_access && field.is_public)

/-- Finds the field with the given name (`TyStructDecl::find_field`). -/
def TyStructDecl.find_field (d : TyStructDecl) (field_name : Ident) :
    Option TyStructField :=
  d.fields.find? fun field => identEq field.name field_name

/-- Zero-based index and type of the named field
(`TyStructDecl::get_field_index_and_type`), implemented as in the source by
enumerating the declared fields in order and taking the first name match. -/
def TyStructDecl.get_field_index_and_type (d : TyStructDecl) (field_name : Ident) :
    Option (Nat × TypeInfo) :=
  (d.fields.enum.find? fun p => identEq p.2.name field_name).map
    fun p => (p.1, p.2.type_argument.type_id)

/-- Returns true if the struct has at least one private field
(`TyStructDecl::has_private_fields`). -/
def TyStructDecl.has_private_fields (d : TyStructDecl) : Bool :=
  d.fields.any fun field => field.is_private

/-- Returns true if the struct has no fields (`TyStructDecl::is_empty`). -/
def TyStructDecl.is_empty (d : TyStructDecl) : Bool :=
  d.fields.isEmpty

/-- Returns true if the struct is non-empty and all fields are private
(`TyStructDecl::has_only_private_fields`). -/
def TyStructDecl.has_only_private_fields (d : TyStructDecl) : Bool :=
  !d.is_empty && d.fields.all fun field => field.is_private

/-! ## Struct instantiation type checking

Model of `struct_instantiation`, `type_check_field_arguments` and
`unify_field_arguments_and_struct_fields` from
`semantic_analysis/ast_node/expression/typed_expression/struct_instantiation.rs`.

The model starts at the point where the struct declaration has been resolved
(source line 94): the earlier call-path resolution steps live in modules
outside the provided sources, so the resolved struct reference is an input,
and the two namespace queries the later code makes —
`module_is_external(prefixes)` and `module_is_submodule_of(prefixes, true)` —
are fixed booleans of the checking context.  Nested expression type checking
(`TyExpression::type_check`), type unification and
`check_type_parameter_bounds` are external collaborators, abstracted as
context functions; diagnostics they may emit concern other expressions and
are not part of the modelled diagnostic stream.  The `assert!` on
`call_path.is_absolute` is a panic, not a diagnostic, and is not modelled.
The scoped namespace clone used to bind the struct's type parameters
(source lines 182-191) is discarded after the bound check and has no
observable effect that the claims mention; only the fallibility of the bound
check is kept, folded into `boundsOk`. -/

/-- Untyped expression supplied as a field value, kept opaque except for its
span (`field.value.span` is read by the span-update side channel). -/
structure Expr where
  code : Nat
  span : Span
deriving DecidableEq, Repr

/-- A supplied field of a struct literal (`StructExpressionField`). -/
structure StructExpressionField where
  name : Ident
  value : Expr
deriving DecidableEq, Repr

/-- Tag of the typed expression variant, abstracting
`TyExpressionVariant`: `EmptyTuple` is `Tuple { fields: vec![] }` (the
error-recovery placeholder body); checked values from the external expression
checker are `Opaque`. -/
inductive TyExprVariantTag
  | EmptyTuple
  | Opaque (n : Nat)
deriving DecidableEq, Repr

/-- Typed expression (`TyExpression`): variant, return type, span. -/
structure TyExpression where
  variant : TyExprVariantTag
  return_type : TypeInfo
  span : Span
deriving DecidableEq, Repr

/-- Checked field of the produced struct expression
(`TyStructExpressionField`). -/
structure TyStructExpressionField where
  name : Ident
  value : TyExpression
deriving DecidableEq, Repr

/-- Diagnostics emitted by the modelled code (`CompileError` variants).
`TypeMismatch` stands for any unification failure diagnostic. -/
inductive CompileError
  | StructInstantiationMissingFields (field_names : List Ident) (struct_name : Ident)
      (span : Span) (struct_decl_span : Span) (total_number_of_fields : Nat)
  | StructCannotBeInstantiated (struct_name : Ident) (span : Span)
      (struct_decl_span : Span) (private_fields : List Ident)
      (all_fields_are_private : Bool) (struct_can_be_adapted : Bool)
  | StructDoesNotHaveField (field_name : Ident) (struct_name : Ident) (span : Span)
  | StructFieldIsPrivate (field_name : Ident) (struct_name : Ident) (span : Span)
      (field_decl_span : Span) (struct_can_be_adapted : Bool)
  | TypeMismatch (span : Span)
deriving DecidableEq, Repr

/-- Checking context for a struct instantiation: the external collaborators
and the two namespace facts the function queries.
`checkExpr annot value` models `TyExpression::type_check` of the value under
the given type annotation (`none` = the nested check failed); `unifyOk` and
`unifyWithGenericOk` model success of `type_engine.unify` and
`type_engine.unify_with_generic`; `boundsOk` models success of
`check_type_parameter_bounds` (including the type-parameter namespace
insertions preceding it); `type_annot` is `ctx.type_annotation()`. -/
structure InstCtx where
  checkExpr : TypeInfo → Expr → Option TyExpression
  unifyOk : TypeInfo → TypeInfo → Bool
  unifyWithGenericOk : TypeInfo → TypeInfo → Bool
  boundsOk : TypeInfo → Bool
  module_is_external : Bool
  module_is_submodule_of : Bool
  type_annot : TypeInfo

/-- The error-recovery placeholder value synthesized for a missing field:
an empty tuple expression of error-recovery type, at the instantiation span.
The `StructInstantiationMissingFieldForErrorRecovery` error it wraps is
emitted to a throwaway `Handler::default()` and never reaches the caller's
diagnostics. -/
def placeholderExpr (span : Span) : TyExpression :=
  ⟨TyExprVariantTag.EmptyTuple, TypeInfo.ErrorRecovery, span⟩

/-- The loop of `type_check_field_arguments` over the declared fields, in
declaration order.  Returns the accumulated `typed_fields`, the
`missing_fields` names, and the declared-field list after the span-update
side channel (`struct_field.span = field.value.span` on a successfully
checked supplied value).  A supplied value whose nested check fails is
skipped (`continue`): no typed field is pushed and no span is updated. -/
def tcfaLoop (checkExpr : TypeInfo → Expr → Option TyExpression)
    (fields : List StructExpressionField) (span : Span) :
    List TyStructField →
      List TyStructExpressionField × List Ident × List TyStructField
  | [] => ([], [], [])
  | struct_field :: rest =>
    let r := tcfaLoop checkExpr fields span rest
    match fields.find? fun x => identEq x.name struct_field.name with
    | some field =>
      match checkExpr struct_field.type_argument.type_id field.value with
      | some value =>
        (⟨field.name, value⟩ :: r.1, r.2.1,
          { struct_field with span := field.value.span } :: r.2.2)
      | none => (r.1, r.2.1, struct_field :: r.2.2)
    | none =>
      (⟨struct_field.name, placeholderExpr span⟩ :: r.1,
        struct_field.name :: r.2.1, struct_field :: r.2.2)

/-- Model of `type_check_field_arguments`: runs the field loop, then emits the
single aggregate missing-fields diagnostic iff emission is enabled and some
declared field had no supplied value.  Returns the typed fields, the
span-updated declared fields, and the emitted diagnostics. -/
def type_check_field_arguments (checkExpr : TypeInfo → Expr → Option TyExpression)
    (fields : List StructExpressionField) (struct_name : Ident)
    (struct_fields : List TyStructField) (span : Span) (struct_decl_span : Span)
    (emit_missing_fields_error : Bool) :
    List TyStructExpressionField × List TyStructField × List CompileError :=
  let r := tcfaLoop checkExpr fields span struct_fields
  (r.1, r.2.2,
    if emit_missing_fields_error && !r.2.1.isEmpty then
      [CompileError.StructInstantiationMissingFields r.2.1 struct_name span
        struct_decl_span r.2.2.length]
    else [])

/-- Model of `unify_field_arguments_and_struct_fields`: inside a handler
scope, unifies each found typed field against its declared type; the scope
succeeds iff no unification diagnostic was emitted.  Returns the scope
outcome and the emitted diagnostics. -/
def unify_field_arguments_and_struct_fields (ctx : InstCtx)
    (typed_fields : List TyStructExpressionField)
    (struct_fields : List TyStructField) : Bool × List CompileError :=
  let ds := struct_fields.filterMap fun struct_field =>
    match typed_fields.find? fun x => identEq x.name struct_field.name with
    | some typed_field =>
      if ctx.unifyWithGenericOk typed_field.value.return_type
          struct_field.type_argument.type_id then none
      else some (CompileError.TypeMismatch typed_field.value.span)
    | none => none
  (ds.isEmpty, ds)

/-- The instantiability judgement of `struct_instantiation` (source lines
110-112): `is_out_of_decl_module_instantiation` is the negation of the
submodule query, and the struct can be instantiated unless the call site is
outside the declaring module subtree and some field is private. -/
def struct_can_be_instantiated (module_is_submodule_of : Bool)
    (struct_fields : List TyStructField) : Bool :=
  let is_out_of_decl_module_instantiation := !module_is_submodule_of
  let struct_has_private_fields :=
    struct_fields.any fun field => field.visibility == Visibility.Private
  !is_out_of_decl_module_instantiation || !struct_has_private_fields

/-- The produced typed struct expression
(`TyExpressionVariant::StructExpression` plus the surrounding
`TyExpression`), flattened: struct reference, checked field list, result
type, span. -/
structure StructInstResult where
  struct_ref : Nat
  fields : List TyStructExpressionField
  return_type : TypeInfo
  span : Span
deriving DecidableEq, Repr

/-- Overall outcome of `struct_instantiation`: the declaration interner after
the call (for the frame property), the result, and the diagnostics emitted to
the caller's handler, in emission order (kept also on the error paths, as a
`Handler` keeps everything emitted before the abort). -/
structure InstOutcome where
  engines : Engines
  result : Except Unit StructInstResult
  diags : List CompileError

/-- Model of `struct_instantiation` from the resolved declaration onward
(source lines 94-206): clone the interned declaration, judge instantiability,
check the field arguments (missing-fields diagnostic suppressed when not
instantiable), emit the cannot-be-instantiated diagnostic, unify field types
inside a scope (aborting on scope failure), unify the result type with the
annotation, report extra supplied fields, report private-field usage when
instantiating from outside the declaring module subtree, check type-parameter
bounds, and produce the typed node. -/
def struct_instantiation (ctx : InstCtx) (engines : Engines) (struct_ref : Nat)
    (fields : List StructExpressionField) (span : Span) : InstOutcome :=
  let struct_decl := get_struct engines struct_ref
  let struct_name := struct_decl.call_path.suffix
  let struct_fields := struct_decl.fields
  let struct_can_be_adapted := !ctx.module_is_external
  let is_out_of_decl_module_instantiation := !ctx.module_is_submodule_of
  let can_inst := struct_can_be_instantiated ctx.module_is_submodule_of struct_fields
  let tcfa := type_check_field_arguments ctx.checkExpr fields struct_name
    struct_fields span struct_decl.span can_inst
  let typed_fields := tcfa.1
  let struct_fields2 := tcfa.2.1
  let diagsMissing := tcfa.2.2
  let diagsCannot :=
    if !can_inst then
      [CompileError.StructCannotBeInstantiated struct_name span struct_decl.span
        ((struct_fields2.filter fun field =>
          field.visibility == Visibility.Private).map fun field => field.name)
        (struct_fields2.all fun field => field.visibility == Visibility.Private)
        struct_can_be_adapted]
    else []
  let u := unify_field_arguments_and_struct_fields ctx typed_fields struct_fields2
  if !u.1 then
    ⟨engines, Except.error (), diagsMissing ++ diagsCannot ++ u.2⟩
  else
    let type_id := TypeInfo.StructTy struct_ref
    let diagsAnnot :=
      if ctx.unifyOk type_id ctx.type_annot then []
      else [CompileError.TypeMismatch span]
    let diagsExtra := fields.filterMap fun field =>
      if struct_fields2.any fun x => identEq x.name field.name then none
      else some (CompileError.StructDoesNotHaveField field.name struct_name
        field.name.span)
    let diagsPrivate :=
      if is_out_of_decl_module_instantiation then
        fields.filterMap fun field =>
          match struct_fields2.find? fun x => identEq x.name field.name with
          | some ty_field =>
            if ty_field.visibility == Visibility.Private then
              some (CompileError.StructFieldIsPrivate field.name struct_name
                field.name.span ty_field.name.span false)
            else none
          | none => none
      else []
    let allDiags := diagsMissing ++ diagsCannot ++ u.2 ++ diagsAnnot
      ++ diagsExtra ++ diagsPrivate
    if !ctx.boundsOk type_id then
      ⟨engines, Except.error (), allDiags⟩
    else
      ⟨engines, Except.ok ⟨struct_ref, typed_fields, type_id, span⟩, allDiags⟩

/-! ## Program assembly and entry-point synthesis

Model of `TyProgram::type_check` from `semantic_analysis/program.rs`.  The
collaborators it calls — `TyModule::analyze`, `compute_order`,
`TyModule::type_check`, `validate_root` and `TyAstNode::type_check` — are
outside the provided sources and are abstracted as components of a checking
environment.  The parsed AST is modelled only to the shapes the synthesizer
builds: the dispatcher function declaration with its body of one variable
declaration and one `if`-expression per entry function.  The `dbg!`
tracing side effects are not modelled. -/

/-- Program kind tag (`TreeType`). -/
inductive TreeType
  | Script
  | Predicate
  | Contract
  | Library
deriving DecidableEq, Repr

/-- Function purity (`Purity`). -/
inductive Purity
  | Pure
  | Reads
  | Writes
  | ReadsWrites
deriving DecidableEq, Repr

/-- Parsed expressions, restricted to the shapes built by the dispatcher
synthesizer: function applications (with explicit type arguments), variable
references, string literals, one-armed `if`, and the `__log` intrinsic. -/
inductive ExpressionM
  | FunctionApplication (name : String) (type_args : List TypeInfo)
      (args : List ExpressionM)
  | Variable (name : String)
  | LiteralString (s : String)
  | If (condition thenBranch : ExpressionM)
  | IntrinsicLog (arg : ExpressionM)

/-- The `decode_first_param::<str>()` call reading the method selector from
the fixed call-frame offset. -/
def call_decode_first_param : ExpressionM :=
  .FunctionApplication "decode_first_param" [TypeInfo.StringSlice] []

/-- The `eq(l, r)` selector comparison call. -/
def call_eq (l r : ExpressionM) : ExpressionM :=
  .FunctionApplication "eq" [] [l, r]

/-- Reference to the `method_name` local. -/
def method_name_var_ref : ExpressionM :=
  .Variable "method_name"

/-- A node of the synthesized function body: the `method_name` variable
declaration or a dispatch `if`-expression. -/
inductive BodyNodeM
  | VarDecl (name : String) (type_ascription : TypeInfo) (body : ExpressionM)
      (is_mutable : Bool)
  | ExprNode (e : ExpressionM)

/-- Parsed function declaration (`FunctionDeclaration`), restricted to the
components the synthesizer sets. -/
structure FunctionDeclarationM where
  purity : Purity
  name : Ident
  visibility : Visibility
  body : List BodyNodeM
  parameters : List Nat
  return_type : TypeInfo
  type_parameters : List Nat

/-- Parsed AST node handed to `TyAstNode::type_check`: the synthesized
function declaration (other node shapes are irrelevant here). -/
inductive AstNodeM
  | FnDecl (fd : FunctionDeclarationM)

/-- Typed AST node, opaque (produced by the external `TyAstNode` checker). -/
abbrev TyAstNode := Nat

/-- Checked module: its node list (`all_nodes`). -/
structure TyModule where
  all_nodes : List TyAstNode
deriving DecidableEq, Repr

/-- Checked program (`TyProgram`), restricted to the components
`type_check` assembles. -/
structure TyProgramM where
  kind : TreeType
  root : TyModule
  declarations : List Nat

/-- The synthesized `__entry` dispatcher declaration (source lines 141-233):
public, `ReadsWrites`, no parameters, unit return type; body = the
`method_name` variable bound to the decoded selector, followed by one
`if eq(method_name, "f") { __log(method_name) }` node per entry function
`f` of the checked program. -/
def mkEntryFnDecl (entry_fn_names : List String) : FunctionDeclarationM where
  purity := Purity.ReadsWrites
  name := Ident.new_no_span "__entry"
  visibility := Visibility.Public
  body :=
    BodyNodeM.VarDecl "method_name" TypeInfo.StringSlice call_decode_first_param
        false
      :: entry_fn_names.map fun n =>
        BodyNodeM.ExprNode
          (.If (call_eq method_name_var_ref (.LiteralString n))
            (.IntrinsicLog method_name_var_ref))
  parameters := []
  return_type := TypeInfo.Unit
  type_parameters := []

/-- Environment of external collaborators for `TyProgram::type_check`:
dependency analysis and ordering outcomes, the root-module checker outcome,
root validation (yielding the declaration list), the names of the checked
program's entry functions (`m.entry_fns`), and the `TyAstNode` checker used
on the synthesized declaration. -/
structure ProgramCheckEnv where
  analyzeOk : Bool
  computeOrderOk : Bool
  moduleCheck : Except Unit TyModule
  validateRoot : TyModule → Except Unit (List Nat)
  entryFnNames : List String
  nodeCheck : AstNodeM → Except Unit TyAstNode

/-- Model of `TyProgram::type_check`: analyze and order the submodules,
check the root module and validate it into a program, and — for the
`Contract` kind only — type-check the synthesized `__entry` declaration and
push it onto the checked root module's node list. -/
def TyProgram_type_check (env : ProgramCheckEnv) (kind : TreeType) :
    Except Unit TyProgramM :=
  if !(env.analyzeOk && env.computeOrderOk) then Except.error ()
  else
    match env.moduleCheck with
    | Except.error e => Except.error e
    | Except.ok root =>
      match env.validateRoot root with
      | Except.error e => Except.error e
      | Except.ok declarations =>
        let m : TyProgramM := ⟨kind, root, declarations⟩
        if kind = TreeType.Contract then
          match env.nodeCheck (AstNodeM.FnDecl (mkEntryFnDecl env.entryFnNames)) with
          | Except.error e => Except.error e
          | Except.ok tn =>
            Except.ok { m with root := ⟨m.root.all_nodes ++ [tn]⟩ }
        else Except.ok m

/-! ## Observers and characterization helpers used by the theorems -/

/-- Recognizes the aggregate missing-fields diagnostic. -/
def isMissingFieldsDiag : CompileError → Bool
  | .StructInstantiationMissingFields _ _ _ _ _ => true
  | _ => false

/-- Recognizes the struct-cannot-be-instantiated diagnostic. -/
def isCannotBeInstantiatedDiag : CompileError → Bool
  | .StructCannotBeInstantiated _ _ _ _ _ _ => true
  | _ => false

/-- Recognizes the does-not-have-field diagnostic. -/
def isDoesNotHaveFieldDiag : CompileError → Bool
  | .StructDoesNotHaveField _ _ _ => true
  | _ => false

/-- Recognizes the field-is-private diagnostic. -/
def isFieldIsPrivateDiag : CompileError → Bool
  | .StructFieldIsPrivate _ _ _ _ _ => true
  | _ => false

/-- The per-declared-field effect of the span-update side channel performed
by the field-argument loop: a declared field matched by a successfully
checked supplied value gets the supplied value's span; everything else is
untouched. -/
def updField (checkExpr : TypeInfo → Expr → Option TyExpression)
    (fields : List StructExpressionField) (sf : TyStructField) : TyStructField :=
  match fields.find? fun x => identEq x.name sf.name with
  | some field =>
    match checkExpr sf.type_argument.type_id field.value with
    | some _ => { sf with span := field.value.span }
    | none => sf
  | none => sf

/-- Names of the declared fields with no supplied value, in declaration
order (the `missing_fields` list the loop accumulates). -/
def missingNames (d : TyStructDecl) (fields : List StructExpressionField) :
    List Ident :=
  (d.fields.filter fun sf =>
    (fields.find? fun x => identEq x.name sf.name).isNone).map fun sf => sf.name

/-- The checked-field entry a declared field contributes when every supplied
value checks successfully: the checked supplied value when one matches by
name, the error-recovery placeholder when the field is missing. -/
def checkedOrPlaceholder (ctx : InstCtx) (fields : List StructExpressionField)
    (span : Span) (sf : TyStructField) : TyStructExpressionField :=
  match fields.find? fun x => identEq x.name sf.name with
  | some field =>
    match ctx.checkExpr sf.type_argument.type_id field.value with
    | some value => ⟨field.name, value⟩
    | none => ⟨field.name, placeholderExpr span⟩
  | none => ⟨sf.name, placeholderExpr span⟩

/-- Semantic content of a struct field: everything except its span and
attributes (the identifier reduced to its name, the type argument to its
descriptor). -/
def TyStructField.strip (f : TyStructField) : Visibility × String × TypeInfo :=
  (f.visibility, f.name.name, f.type_argument.type_id)

/-- Semantic content of a type parameter: everything except spans. -/
def TypeParameter.strip (tp : TypeParameter) : String × TypeInfo :=
  (tp.name.name, tp.type_id)

/-- Semantic content of a struct declaration: everything except the spans
and attribute maps of the declaration and of its parts. -/
def TyStructDecl.strip (d : TyStructDecl) :
    (List String × String × Bool) × List (Visibility × String × TypeInfo)
      × List (String × TypeInfo) × Visibility :=
  ((d.call_path.prefixes.map fun i => i.name, d.call_path.suffix.name,
      d.call_path.is_absolute),
    d.fields.map TyStructField.strip, d.type_parameters.map TypeParameter.strip,
    d.visibility)

/-! ## Concrete fixtures for witnesses and counterexamples -/

/-- Sample private field `x: bool`. -/
def fieldX : TyStructField :=
  ⟨Visibility.Private, ⟨"x", 10⟩, 11, ⟨TypeInfo.Boolean, 12⟩, []⟩

/-- Sample public field `y: bool`. -/
def fieldY : TyStructField :=
  ⟨Visibility.Public, ⟨"y", 13⟩, 14, ⟨TypeInfo.Boolean, 15⟩, []⟩

/-- Copy of `fieldX` with different spans and attributes only. -/
def fieldXs : TyStructField :=
  ⟨Visibility.Private, ⟨"x", 40⟩, 41, ⟨TypeInfo.Boolean, 42⟩, [9]⟩

/-- Copy of `fieldX` with `Public` visibility and everything that equality
compares unchanged. -/
def fieldXpub : TyStructField :=
  ⟨Visibility.Public, ⟨"x", 10⟩, 11, ⟨TypeInfo.Boolean, 12⟩, []⟩

/-- Sample struct `Point { x: bool (private), y: bool (public) }`. -/
def pointDecl : TyStructDecl :=
  ⟨⟨[⟨"lib", 2⟩], ⟨"Point", 3⟩, true⟩, [fieldX, fieldY],
    [⟨⟨"T", 5⟩, TypeInfo.Custom "T"⟩], Visibility.Public, 4, []⟩

/-- Copy of `pointDecl` with different spans and attributes only. -/
def pointDecls : TyStructDecl :=
  ⟨⟨[⟨"lib", 52⟩], ⟨"Point", 53⟩, true⟩, [fieldXs, ⟨Visibility.Public, ⟨"y", 63⟩,
    64, ⟨TypeInfo.Boolean, 65⟩, [1]⟩],
    [⟨⟨"T", 55⟩, TypeInfo.Custom "T"⟩], Visibility.Public, 54, [2]⟩

/-- Sample engines owning `pointDecl` at slot 0. -/
def sampleEngines : Engines :=
  ⟨[pointDecl]⟩

/-- Checking context in which every external collaborator succeeds, checking
from inside the declaring module subtree of a local module. -/
def ctxAllOk : InstCtx :=
  ⟨fun t ex => some ⟨TyExprVariantTag.Opaque ex.code, t, ex.span⟩,
    fun _ _ => true, fun _ _ => true, fun _ => true, false, true,
    TypeInfo.StructTy 0⟩

/-- Checking context like `ctxAllOk` but with the call site outside the
declaring module subtree of an external module. -/
def ctxOutside : InstCtx :=
  ⟨fun t ex => some ⟨TyExprVariantTag.Opaque ex.code, t, ex.span⟩,
    fun _ _ => true, fun _ _ => true, fun _ => true, true, false,
    TypeInfo.StructTy 0⟩

/-- Checking context like `ctxAllOk` but in which every nested expression
check fails. -/
def ctxFailValue : InstCtx :=
  ⟨fun _ _ => none, fun _ _ => true, fun _ _ => true, fun _ => true, false,
    true, TypeInfo.StructTy 0⟩

/-- Checking context in which every supplied value checks to a concrete type
(`wrong`) that does not match any declared field type, and unification
succeeds only on equal descriptors or when one side is the error-recovery
type: checking such a value against its declared type fails the per-field
unification scope.  The call site is inside the declaring module subtree. -/
def ctxUnifyFail : InstCtx :=
  ⟨fun _ ex => some ⟨TyExprVariantTag.Opaque ex.code, TypeInfo.Custom "wrong",
      ex.span⟩,
    fun a b => a == b || a == TypeInfo.ErrorRecovery
      || b == TypeInfo.ErrorRecovery,
    fun a b => a == b || a == TypeInfo.ErrorRecovery
      || b == TypeInfo.ErrorRecovery,
    fun _ => true, false, true, TypeInfo.StructTy 0⟩

/-- The context `ctxUnifyFail` with the call site outside the declaring
module subtree of an external module. -/
def ctxUnifyFailOutside : InstCtx :=
  ⟨fun _ ex => some ⟨TyExprVariantTag.Opaque ex.code, TypeInfo.Custom "wrong",
      ex.span⟩,
    fun a b => a == b || a == TypeInfo.ErrorRecovery
      || b == TypeInfo.ErrorRecovery,
    fun a b => a == b || a == TypeInfo.ErrorRecovery
      || b == TypeInfo.ErrorRecovery,
    fun _ => true, true, false, TypeInfo.StructTy 0⟩

/-- Supplied value for the declared field `x`. -/
def suppliedX : StructExpressionField :=
  ⟨⟨"x", 20⟩, ⟨100, 21⟩⟩

/-- Supplied value for the declared field `y`. -/
def suppliedY : StructExpressionField :=
  ⟨⟨"y", 22⟩, ⟨101, 23⟩⟩

/-- Supplied value for an undeclared field `z`. -/
def suppliedZ : StructExpressionField :=
  ⟨⟨"z", 24⟩, ⟨102, 25⟩⟩

/-- The typed node produced by instantiating `Point` with `x` and `y`
supplied and every collaborator succeeding. -/
def resultXY : StructInstResult :=
  ⟨0, [⟨⟨"x", 20⟩, ⟨TyExprVariantTag.Opaque 100, TypeInfo.Boolean, 21⟩⟩,
    ⟨⟨"y", 22⟩, ⟨TyExprVariantTag.Opaque 101, TypeInfo.Boolean, 23⟩⟩],
    TypeInfo.StructTy 0, 9⟩

/-- Environment fixture for the program-assembly witness: the checked root
module has one node, every collaborator succeeds, one entry function. -/
def envW : ProgramCheckEnv :=
  ⟨true, true, Except.ok ⟨[7]⟩, fun _ => Except.ok [], ["foo"],
    fun _ => Except.ok 42⟩

/-- The field-argument checking step of `struct_instantiation`, as invoked by
it: an observer used to state the behavioural lemmas. -/
def tcOf (ctx : InstCtx) (engines : Engines) (struct_ref : Nat)
    (fields : List StructExpressionField) (span : Span) :
    List TyStructExpressionField × List TyStructField × List CompileError :=
  type_check_field_arguments ctx.checkExpr fields
    (get_struct engines struct_ref).call_path.suffix
    (get_struct engines struct_ref).fields span
    (get_struct engines struct_ref).span
    (struct_can_be_instantiated ctx.module_is_submodule_of
      (get_struct engines struct_ref).fields)

/-- The field-unification scope of `struct_instantiation`, as invoked by it:
an observer used to state the behavioural lemmas. -/
def uOf (ctx : InstCtx) (engines : Engines) (struct_ref : Nat)
    (fields : List StructExpressionField) (span : Span) : Bool × List CompileError :=
  unify_field_arguments_and_struct_fields ctx
    (tcOf ctx engines struct_ref fields span).1
    (tcOf ctx engines struct_ref fields span).2.1

/-! ## General lemmas -/

theorem beqComm {α : Type _} [BEq α] [LawfulBEq α] (a b : α) : (a == b) = (b == a) := by
  rcases Classical.em (a = b) with h | h
  · subst h; rfl
  · have h1 : (a == b) = false := beq_eq_false_iff_ne.mpr h
    have h2 : (b == a) = false := beq_eq_false_iff_ne.mpr (Ne.symm h)
    rw [h1, h2]

theorem listEqWith_refl {α : Type _} {f : α → α → Bool} (hf : ∀ a, f a a = true) :
    ∀ l, listEqWith f l l = true
  | [] => rfl
  | a :: as => by simp [listEqWith, hf a, listEqWith_refl hf as]

theorem listEqWith_comm {α : Type _} {f : α → α → Bool}
    (hf : ∀ a b, f a b = f b a) : ∀ l1 l2, listEqWith f l1 l2 = listEqWith f l2 l1
  | [], [] => rfl
  | [], _ :: _ => rfl
  | _ :: _, [] => rfl
  | a :: as, b :: bs => by
    simp [listEqWith, hf a b, listEqWith_comm hf as bs]

theorem listEqWith_of_map_eq {α β : Type _} {g : α → β} {f : α → α → Bool}
    (hf : ∀ a b, g a = g b → f a b = true) :
    ∀ l1 l2, l1.map g = l2.map g → listEqWith f l1 l2 = true
  | [], [], _ => rfl
  | [], _ :: _, h => by simp at h
  | _ :: _, [], h => by simp at h
  | a :: as, b :: bs, h => by
    simp only [List.map_cons, List.cons.injEq] at h
    simp [listEqWith, hf a b h.1, listEqWith_of_map_eq hf as bs h.2]

theorem hashListWith_of_map_eq {α β : Type _} {g : α → β} {h : α → List Nat}
    (hh : ∀ a b, g a = g b → h a = h b) :
    ∀ l1 l2, l1.map g = l2.map g → hashListWith h l1 = hashListWith h l2
  | [], [], _ => rfl
  | [], _ :: _, he => by simp at he
  | _ :: _, [], he => by simp at he
  | a :: as, b :: bs, he => by
    simp only [List.map_cons, List.cons.injEq] at he
    have ih := hashListWith_of_map_eq hh as bs he.2
    simp only [hashListWith, List.map_cons, List.flatten_cons] at ih ⊢
    rw [hh a b he.1, ih]

theorem cmpListWith_of_map_eq {α β : Type _} {g : α → β} {f : α → α → Ordering}
    (hf : ∀ a b, g a = g b → f a b = Ordering.eq) :
    ∀ l1 l2, l1.map g = l2.map g → cmpListWith f l1 l2 = Ordering.eq
  | [], [], _ => rfl
  | [], _ :: _, h => by simp at h
  | _ :: _, [], h => by simp at h
  | a :: as, b :: bs, h => by
    simp only [List.map_cons, List.cons.injEq] at h
    simp [cmpListWith, hf a b h.1, Ordering.then,
      cmpListWith_of_map_eq hf as bs h.2]

theorem cmpStr_self (s : String) : cmpStr s s = Ordering.eq := by
  simp [cmpStr]

theorem cmpNat_self (n : Nat) : cmpNat n n = Ordering.eq := by
  simp [cmpNat]

theorem cmpTypeInfo_self (t : TypeInfo) : cmpTypeInfo t t = Ordering.eq := by
  simp [cmpTypeInfo, cmpNat_self, cmpStr_self, Ordering.then]

/-! ## Lemmas on field and declaration comparison -/

theorem eqF_refl (e : Engines) (f : TyStructField) :
    TyStructField.eqWithEngines e f f = true := by
  simp [TyStructField.eqWithEngines, identEq, TypeArgument.eqWithEngines]

theorem eqF_comm (e : Engines) (a b : TyStructField) :
    TyStructField.eqWithEngines e a b = TyStructField.eqWithEngines e b a := by
  simp only [TyStructField.eqWithEngines, identEq, TypeArgument.eqWithEngines]
  rw [beqComm a.name.name b.name.name,
    beqComm a.type_argument.type_id b.type_argument.type_id]

theorem eqF_of_strip_eq (e : Engines) {a b : TyStructField}
    (h : a.strip = b.strip) : TyStructField.eqWithEngines e a b = true := by
  simp only [TyStructField.strip, Prod.mk.injEq] at h
  simp [TyStructField.eqWithEngines, identEq, TypeArgument.eqWithEngines,
    h.2.1, h.2.2]

theorem hashF_of_strip_eq (e : Engines) {a b : TyStructField}
    (h : a.strip = b.strip) :
    TyStructField.hashWithEngines e a = TyStructField.hashWithEngines e b := by
  simp only [TyStructField.strip, Prod.mk.injEq] at h
  simp [TyStructField.hashWithEngines, hashIdent, h.1, h.2.1, h.2.2,
    TypeArgument.hashWithEngines]

theorem cmpF_of_strip_eq (e : Engines) {a b : TyStructField}
    (h : a.strip = b.strip) :
    TyStructField.cmpWithEngines e a b = Ordering.eq := by
  simp only [TyStructField.strip, Prod.mk.injEq] at h
  simp [TyStructField.cmpWithEngines, TypeArgument.cmpWithEngines, h.2.1,
    h.2.2, cmpStr_self, cmpTypeInfo_self, Ordering.then]

theorem eqTP_of_strip_eq (e : Engines) {a b : TypeParameter}
    (h : a.strip = b.strip) : TypeParameter.eqWithEngines e a b = true := by
  simp only [TypeParameter.strip, Prod.mk.injEq] at h
  simp [TypeParameter.eqWithEngines, identEq, h.1, h.2]

theorem eqTP_refl (e : Engines) (tp : TypeParameter) :
    TypeParameter.eqWithEngines e tp tp = true := by
  simp [TypeParameter.eqWithEngines, identEq]

theorem eqD_refl (e : Engines) (d : TyStructDecl) :
    TyStructDecl.eqWithEngines e d d = true := by
  simp [TyStructDecl.eqWithEngines, identEq,
    listEqWith_refl (eqF_refl e), listEqWith_refl (eqTP_refl e)]

theorem eqD_comm (e : Engines) (a b : TyStructDecl) :
    TyStructDecl.eqWithEngines e a b = TyStructDecl.eqWithEngines e b a := by
  simp only [TyStructDecl.eqWithEngines, identEq]
  rw [beqComm a.call_path.suffix.name b.call_path.suffix.name,
    listEqWith_comm (eqF_comm e) a.fields b.fields,
    listEqWith_comm (fun x y => by
      simp only [TypeParameter.eqWithEngines, identEq]
      rw [beqComm x.name.name y.name.name, beqComm x.type_id y.type_id])
      a.type_parameters b.type_parameters,
    beqComm a.visibility b.visibility]

theorem eqD_of_strip_eq (e : Engines) {a b : TyStructDecl}
    (h : a.strip = b.strip) : TyStructDecl.eqWithEngines e a b = true := by
  simp only [TyStructDecl.strip, Prod.mk.injEq] at h
  have hf := listEqWith_of_map_eq (g := TyStructField.strip)
    (fun x y hxy => eqF_of_strip_eq e hxy) a.fields b.fields h.2.1
  have htp := listEqWith_of_map_eq (g := TypeParameter.strip)
    (fun x y hxy => eqTP_of_strip_eq e hxy) a.type_parameters
    b.type_parameters h.2.2.1
  simp [TyStructDecl.eqWithEngines, identEq, h.1.2.1, h.2.2.2, hf, htp]

theorem hashD_of_strip_eq (e : Engines) {a b : TyStructDecl}
    (h : a.strip = b.strip) :
    TyStructDecl.hashWithEngines e a = TyStructDecl.hashWithEngines e b := by
  simp only [TyStructDecl.strip, Prod.mk.injEq] at h
  have hf := hashListWith_of_map_eq (g := TyStructField.strip)
    (h := TyStructField.hashWithEngines e)
    (fun x y hxy => hashF_of_strip_eq e hxy) a.fields b.fields h.2.1
  have htp := hashListWith_of_map_eq (g := TypeParameter.strip)
    (h := TypeParameter.hashWithEngines e)
    (fun x y hxy => by
      simp only [TypeParameter.strip, Prod.mk.injEq] at hxy
      simp [TypeParameter.hashWithEngines, hashIdent, hxy.1, hxy.2])
    a.type_parameters b.type_parameters h.2.2.1
  simp [TyStructDecl.hashWithEngines, hashIdent, h.1.2.1, h.2.2.2, hf, htp]

theorem cmpD_of_strip_eq (e : Engines) {a b : TyStructDecl}
    (h : a.strip = b.strip) :
    TyStructDecl.cmpWithEngines e a b = Ordering.eq := by
  simp only [TyStructDecl.strip, Prod.mk.injEq] at h
  have hf := cmpListWith_of_map_eq (g := TyStructField.strip)
    (fun x y hxy => cmpF_of_strip_eq e hxy) a.fields b.fields h.2.1
  have htp := cmpListWith_of_map_eq (g := TypeParameter.strip)
    (f := fun x y => (cmpStr x.name.name y.name.name).then
      (cmpTypeInfo x.type_id y.type_id))
    (fun x y hxy => by
      simp only [TypeParameter.strip, Prod.mk.injEq] at hxy
      simp [hxy.1, hxy.2, cmpStr_self, cmpTypeInfo_self, Ordering.then])
    a.type_parameters b.type_parameters h.2.2.1
  unfold TyStructDecl.cmpWithEngines
  simp only [h.1.2.1, h.2.2.2, cmpStr_self, hf, htp, cmpNat_self]
  rfl

/-! ## Claim C5 -/

/-- C5: under a fixed Engines context, structural equality of struct
declarations and struct fields is reflexive and symmetric, and equality,
hashing and ordering are all unaffected by span and attribute differences:
two declarations (or fields) that differ only in spans or attributes compare
equal, hash equal and order equal. -/
theorem decl_field_comparison_refl_symm_span_attr_blind
    (e : Engines) (d1 d2 d3 d4 : TyStructDecl) (f1 f2 f3 f4 : TyStructField)
    (hd : d1.strip = d2.strip) (hf : f1.strip = f2.strip) :
    TyStructDecl.eqWithEngines e d3 d3 = true
    ∧ TyStructField.eqWithEngines e f3 f3 = true
    ∧ TyStructDecl.eqWithEngines e d3 d4 = TyStructDecl.eqWithEngines e d4 d3
    ∧ TyStructField.eqWithEngines e f3 f4 = TyStructField.eqWithEngines e f4 f3
    ∧ TyStructDecl.eqWithEngines e d1 d2 = true
    ∧ TyStructDecl.hashWithEngines e d1 = TyStructDecl.hashWithEngines e d2
    ∧ TyStructDecl.cmpWithEngines e d1 d2 = Ordering.eq
    ∧ TyStructField.eqWithEngines e f1 f2 = true
    ∧ TyStructField.hashWithEngines e f1 = TyStructField.hashWithEngines e f2
    ∧ TyStructField.cmpWithEngines e f1 f2 = Ordering.eq :=
  ⟨eqD_refl e d3, eqF_refl e f3, eqD_comm e d3 d4, eqF_comm e f3 f4,
    eqD_of_strip_eq e hd, hashD_of_strip_eq e hd, cmpD_of_strip_eq e hd,
    eqF_of_strip_eq e hf, hashF_of_strip_eq e hf, cmpF_of_strip_eq e hf⟩

/-- Witness for C5 at concrete declarations and fields differing only in
spans and attributes. -/
theorem decl_field_comparison_refl_symm_span_attr_blind_witness :
    TyStructDecl.eqWithEngines sampleEngines pointDecl pointDecl = true
    ∧ TyStructField.eqWithEngines sampleEngines fieldX fieldX = true
    ∧ TyStructDecl.eqWithEngines sampleEngines pointDecl pointDecls
        = TyStructDecl.eqWithEngines sampleEngines pointDecls pointDecl
    ∧ TyStructField.eqWithEngines sampleEngines fieldX fieldXs
        = TyStructField.eqWithEngines sampleEngines fieldXs fieldX
    ∧ TyStructDecl.eqWithEngines sampleEngines pointDecl pointDecls = true
    ∧ TyStructDecl.hashWithEngines sampleEngines pointDecl
        = TyStructDecl.hashWithEngines sampleEngines pointDecls
    ∧ TyStructDecl.cmpWithEngines sampleEngines pointDecl pointDecls = Ordering.eq
    ∧ TyStructField.eqWithEngines sampleEngines fieldX fieldXs = true
    ∧ TyStructField.hashWithEngines sampleEngines fieldX
        = TyStructField.hashWithEngines sampleEngines fieldXs
    ∧ TyStructField.cmpWithEngines sampleEngines fieldX fieldXs = Ordering.eq :=
  decl_field_comparison_refl_symm_span_attr_blind sampleEngines pointDecl
    pointDecls pointDecl pointDecls fieldX fieldXs fieldX fieldXs
    (by decide) (by decide)

/-! ## Claim C9 -/

/-- C9 counterexample: the eq/hash consistency contract fails on fields that
differ only in visibility: `fieldX` (private) and `fieldXpub` (public) agree
on name and type, so the Engines-aware equality — which compares name and
type argument only — makes them equal, yet the Engines-aware hash feeds the
visibility tag into the hasher, so their hash streams differ. -/
theorem field_eq_hash_inconsistent_on_visibility :
    TyStructField.eqWithEngines sampleEngines fieldX fieldXpub = true
    ∧ TyStructField.hashWithEngines sampleEngines fieldX
        ≠ TyStructField.hashWithEngines sampleEngines fieldXpub := by
  decide

/-- C9 (amended): for every pair of `TyStructField` values and fixed Engines
context, if the two fields compare equal under the Engines-aware equality
AND agree on visibility, then they produce equal hash values under the
Engines-aware hash. -/
theorem field_hash_eq_of_eq_and_same_visibility (e : Engines)
    (a b : TyStructField) (h : TyStructField.eqWithEngines e a b = true)
    (hv : a.visibility = b.visibility) :
    TyStructField.hashWithEngines e a = TyStructField.hashWithEngines e b := by
  simp only [TyStructField.eqWithEngines, identEq, TypeArgument.eqWithEngines,
    Bool.and_eq_true, beq_iff_eq] at h
  simp [TyStructField.hashWithEngines, hashIdent, hv, h.1, h.2,
    TypeArgument.hashWithEngines]

/-- Witness for the amended C9 at two equal fields of equal visibility that
differ in span and attributes. -/
theorem field_hash_eq_of_eq_and_same_visibility_witness :
    TyStructField.hashWithEngines sampleEngines fieldX
      = TyStructField.hashWithEngines sampleEngines fieldXs :=
  field_hash_eq_of_eq_and_same_visibility sampleEngines fieldX fieldXs
    (by decide) rfl

/-! ## Claim C2 -/

/-- C2: a struct is judged not instantiable iff the call site is outside the
declaring module subtree and the struct has at least one private field;
instantiation from within the subtree is always permitted, and a struct with
zero private fields is instantiable from anywhere. -/
theorem struct_can_be_instantiated_iff (sub : Bool) (sfs : List TyStructField) :
    (struct_can_be_instantiated sub sfs = false ↔
      (sub = false ∧ ∃ f ∈ sfs, f.visibility = Visibility.Private))
    ∧ (sub = true → struct_can_be_instantiated sub sfs = true)
    ∧ ((∀ f ∈ sfs, f.visibility ≠ Visibility.Private) →
        struct_can_be_instantiated sub sfs = true) := by
  refine ⟨?_, ?_, ?_⟩
  · cases sub <;> simp [struct_can_be_instantiated, List.any_eq_true]
  · intro h; subst h; simp [struct_can_be_instantiated]
  · intro h
    cases sub
    · simp only [struct_can_be_instantiated, Bool.not_false, Bool.not_true,
        Bool.false_or, Bool.not_eq_true', List.any_eq_false]
      simpa using h
    · simp [struct_can_be_instantiated]

/-- Witness for C2: a struct with a private field is not instantiable from
outside the subtree and is instantiable from inside it. -/
theorem struct_can_be_instantiated_iff_witness :
    struct_can_be_instantiated false [fieldX] = false
    ∧ struct_can_be_instantiated true [fieldX] = true :=
  ⟨(struct_can_be_instantiated_iff false [fieldX]).1.mpr
      ⟨rfl, fieldX, by decide, by decide⟩,
    (struct_can_be_instantiated_iff true [fieldX]).2.1 rfl⟩

/-! ## Claim C10 -/

/-- C10: `struct_instantiation` never modifies the declaration interner: it
works on a clone of the interned declaration, so the field-span updates made
while checking supplied values touch only the clone, and the engines after
the call are the engines before it. -/
theorem struct_instantiation_preserves_decl_engine (ctx : InstCtx)
    (engines : Engines) (struct_ref : Nat)
    (fields : List StructExpressionField) (span : Span) :
    (struct_instantiation ctx engines struct_ref fields span).engines
      = engines := by
  simp only [struct_instantiation]
  split
  · rfl
  · split <;> rfl

/-! ## Claim C3 -/

/-- C3: `TyProgram::type_check` on a Contract-kind program appends exactly
one synthesized dispatcher declaration — the checked `__entry` function,
absent from the source program — to the checked root module's node list;
on Script-, Predicate- and Library-kind programs it appends none. -/
theorem contract_kind_appends_one_entry_dispatcher (env : ProgramCheckEnv)
    (kind : TreeType) (root : TyModule) (p : TyProgramM) (tn : TyAstNode)
    (hm : env.moduleCheck = Except.ok root)
    (hn : env.nodeCheck (AstNodeM.FnDecl (mkEntryFnDecl env.entryFnNames))
      = Except.ok tn)
    (hp : TyProgram_type_check env kind = Except.ok p) :
    (kind = TreeType.Contract →
      p.root.all_nodes = root.all_nodes ++ [tn]
        ∧ (mkEntryFnDecl env.entryFnNames).name.name = "__entry")
    ∧ (kind ≠ TreeType.Contract → p.root.all_nodes = root.all_nodes) := by
  by_cases ha : (env.analyzeOk && env.computeOrderOk) = true
  case neg =>
    unfold TyProgram_type_check at hp
    simp only [Bool.not_eq_true] at ha
    simp [ha] at hp
  case pos =>
    rcases hv : env.validateRoot root with e | decls
    · unfold TyProgram_type_check at hp
      rw [hm] at hp
      simp [ha, hv] at hp
    · by_cases hk : kind = TreeType.Contract
      · subst hk
        unfold TyProgram_type_check at hp
        rw [hm] at hp
        simp [ha, hv, hn] at hp
        refine ⟨fun _ => ⟨?_, rfl⟩, fun hk2 => absurd rfl hk2⟩
        rw [← hp]
      · unfold TyProgram_type_check at hp
        rw [hm] at hp
        simp [ha, hv, hk] at hp
        refine ⟨fun hkc => absurd hkc hk, fun _ => ?_⟩
        rw [← hp]

/-- Witness for C3: a concrete Contract-kind check appends exactly the
checked dispatcher node to the single-node root module. -/
theorem contract_kind_appends_one_entry_dispatcher_witness :
    (⟨TreeType.Contract, ⟨[7, 42]⟩, ([] : List Nat)⟩ : TyProgramM).root.all_nodes
        = ([7] : List TyAstNode) ++ [42]
      ∧ (mkEntryFnDecl envW.entryFnNames).name.name = "__entry" :=
  (contract_kind_appends_one_entry_dispatcher envW TreeType.Contract ⟨[7]⟩
    ⟨TreeType.Contract, ⟨[7, 42]⟩, []⟩ 42 rfl rfl rfl).1 rfl

/-! ## Claim C6 -/

theorem enumFrom_find_name (nm : Ident) :
    ∀ (l : List TyStructField) (n : Nat),
      (((l.enumFrom n).find? fun p => identEq p.2.name nm) = none ↔
        ∀ f ∈ l, identEq f.name nm = false)
      ∧ (∀ i f,
          ((l.enumFrom n).find? fun p => identEq p.2.name nm) = some (i, f) →
          n ≤ i ∧ i - n < l.length ∧ l.getD (i - n) dfltField = f
            ∧ identEq f.name nm = true
            ∧ ∀ j, j < i - n → identEq (l.getD j dfltField).name nm = false)
  | [], n => by simp
  | a :: as, n => by
    have ih := enumFrom_find_name nm as (n + 1)
    by_cases ha : identEq a.name nm = true
    · constructor
      · simp [List.enumFrom, List.find?, ha, List.forall_mem_cons]
      · intro i f hif
        simp only [List.enumFrom, List.find?, ha] at hif
        have hni : n = i ∧ a = f := by
          constructor <;> [exact congrArg Prod.fst (Option.some.inj hif);
            exact congrArg Prod.snd (Option.some.inj hif)]
        obtain ⟨rfl, rfl⟩ := hni
        refine ⟨Nat.le_refl n, by simp, by simp, ha,
          fun j hj => absurd hj (by omega)⟩
    · have ha' : identEq a.name nm = false := by
        simpa using ha
      have hred : ((a :: as).enumFrom n).find? (fun p => identEq p.2.name nm)
          = (as.enumFrom (n + 1)).find? fun p => identEq p.2.name nm := by
        simp [List.enumFrom, List.find?, ha']
      constructor
      · rw [hred, ih.1]
        simp [List.forall_mem_cons, ha']
      · intro i f hif
        rw [hred] at hif
        obtain ⟨h1, h2, h3, h4, h5⟩ := ih.2 i f hif
        have hin : i - n = (i - (n + 1)) + 1 := by omega
        refine ⟨by omega, ?_, ?_, h4, ?_⟩
        · simp only [List.length_cons]
          omega
        · rw [hin, List.getD_cons_succ]
          exact h3
        · intro j hj
          cases j with
          | zero => simpa using ha'
          | succ j =>
            have hj' : j < i - (n + 1) := by omega
            simpa [List.getD_cons_succ] using h5 j hj'

/-- C6: field lookup by name returns `some (index, type)` iff a field with
that name exists; the index is the zero-based declaration-order position of
the (first) field with that name and the type is that field's declared type;
it returns `none` iff no field has that name. -/
theorem get_field_index_and_type_spec (d : TyStructDecl) (field_name : Ident) :
    (d.get_field_index_and_type field_name = none ↔
      ∀ f ∈ d.fields, f.name.name ≠ field_name.name)
    ∧ (∀ i t, d.get_field_index_and_type field_name = some (i, t) →
        i < d.fields.length
          ∧ (d.fields.getD i dfltField).name.name = field_name.name
          ∧ t = (d.fields.getD i dfltField).type_argument.type_id
          ∧ ∀ j, j < i → (d.fields.getD j dfltField).name.name ≠ field_name.name) := by
  have aux := enumFrom_find_name field_name d.fields 0
  have henum : d.fields.enum = d.fields.enumFrom 0 := rfl
  constructor
  · constructor
    · intro hnone
      have hfind : d.fields.enum.find? (fun p => identEq p.2.name field_name)
          = none := by
        cases hf : d.fields.enum.find? fun p => identEq p.2.name field_name with
        | none => rfl
        | some p =>
          unfold TyStructDecl.get_field_index_and_type at hnone
          rw [hf] at hnone
          simp at hnone
      rw [henum] at hfind
      have := aux.1.mp hfind
      intro f hfmem
      have hf := this f hfmem
      simpa [identEq] using hf
    · intro hall
      have hfind : ((d.fields.enumFrom 0).find? fun p =>
          identEq p.2.name field_name) = none := by
        rw [aux.1]
        intro f hfmem
        simpa [identEq] using hall f hfmem
      unfold TyStructDecl.get_field_index_and_type
      rw [henum, hfind]
      rfl
  · intro i t hsome
    unfold TyStructDecl.get_field_index_and_type at hsome
    cases hf : d.fields.enum.find? fun p => identEq p.2.name field_name with
    | none => rw [hf] at hsome; simp at hsome
    | some p =>
      rw [hf] at hsome
      obtain ⟨pi, pf⟩ := p
      simp only [Option.map_some', Option.some.injEq, Prod.mk.injEq] at hsome
      rw [henum] at hf
      obtain ⟨-, h2, h3, h4, h5⟩ := aux.2 pi pf hf
      simp only [Nat.sub_zero] at h2 h3 h5
      obtain ⟨rfl, rfl⟩ := hsome
      refine ⟨h2, ?_, ?_, ?_⟩
      · rw [h3]
        simpa [identEq] using h4
      · rw [h3]
      · intro j hj
        have := h5 j hj
        simpa [identEq] using this

/-- Witness for C6 at the concrete `Point` declaration: looking up `y`
returns index 1 with the declared position and type facts. -/
theorem get_field_index_and_type_spec_witness :
    1 < pointDecl.fields.length
      ∧ (pointDecl.fields.getD 1 dfltField).name.name = (⟨"y", 99⟩ : Ident).name :=
  ⟨((get_field_index_and_type_spec pointDecl ⟨"y", 99⟩).2 1 TypeInfo.Boolean
      (by decide)).1,
    ((get_field_index_and_type_spec pointDecl ⟨"y", 99⟩).2 1 TypeInfo.Boolean
      (by decide)).2.1⟩

/-! ## Lemmas on the field-argument loop -/

theorem updField_name (c : TypeInfo → Expr → Option TyExpression)
    (fs : List StructExpressionField) (sf : TyStructField) :
    (updField c fs sf).name = sf.name := by
  unfold updField
  split
  · split <;> rfl
  · rfl

theorem updField_visibility (c : TypeInfo → Expr → Option TyExpression)
    (fs : List StructExpressionField) (sf : TyStructField) :
    (updField c fs sf).visibility = sf.visibility := by
  unfold updField
  split
  · split <;> rfl
  · rfl

theorem tcfaLoop_typed (c : TypeInfo → Expr → Option TyExpression)
    (fs : List StructExpressionField) (sp : Span) :
    ∀ l, (tcfaLoop c fs sp l).1 = l.filterMap fun sf =>
      match fs.find? fun x => identEq x.name sf.name with
      | some f => (c sf.type_argument.type_id f.value).map fun v =>
          (⟨f.name, v⟩ : TyStructExpressionField)
      | none => some ⟨sf.name, placeholderExpr sp⟩
  | [] => rfl
  | sf :: rest => by
    have ih := tcfaLoop_typed c fs sp rest
    cases hf : fs.find? fun x => identEq x.name sf.name with
    | none => simp [tcfaLoop, hf, ih, List.filterMap_cons]
    | some f =>
      cases hc : c sf.type_argument.type_id f.value with
      | none => simp [tcfaLoop, hf, hc, ih, List.filterMap_cons]
      | some v => simp [tcfaLoop, hf, hc, ih, List.filterMap_cons]

theorem tcfaLoop_missing (c : TypeInfo → Expr → Option TyExpression)
    (fs : List StructExpressionField) (sp : Span) :
    ∀ l, (tcfaLoop c fs sp l).2.1 =
      (l.filter fun sf =>
        (fs.find? fun x => identEq x.name sf.name).isNone).map fun sf => sf.name
  | [] => rfl
  | sf :: rest => by
    have ih := tcfaLoop_missing c fs sp rest
    cases hf : fs.find? fun x => identEq x.name sf.name with
    | none => simp [tcfaLoop, hf, ih, List.filter_cons]
    | some f =>
      cases hc : c sf.type_argument.type_id f.value with
      | none => simp [tcfaLoop, hf, hc, ih, List.filter_cons]
      | some v => simp [tcfaLoop, hf, hc, ih, List.filter_cons]

theorem tcfaLoop_sfs (c : TypeInfo → Expr → Option TyExpression)
    (fs : List StructExpressionField) (sp : Span) :
    ∀ l, (tcfaLoop c fs sp l).2.2 = l.map (updField c fs)
  | [] => rfl
  | sf :: rest => by
    have ih := tcfaLoop_sfs c fs sp rest
    cases hf : fs.find? fun x => identEq x.name sf.name with
    | none => simp [tcfaLoop, updField, hf, ih]
    | some f =>
      cases hc : c sf.type_argument.type_id f.value with
      | none => simp [tcfaLoop, updField, hf, hc, ih]
      | some v => simp [tcfaLoop, updField, hf, hc, ih]

theorem tcOf_typed (ctx : InstCtx) (engines : Engines) (struct_ref : Nat)
    (fields : List StructExpressionField) (span : Span) :
    (tcOf ctx engines struct_ref fields span).1 =
      (get_struct engines struct_ref).fields.filterMap fun sf =>
        match fields.find? fun x => identEq x.name sf.name with
        | some f => (ctx.checkExpr sf.type_argument.type_id f.value).map fun v =>
            (⟨f.name, v⟩ : TyStructExpressionField)
        | none => some ⟨sf.name, placeholderExpr span⟩ :=
  tcfaLoop_typed ctx.checkExpr fields span (get_struct engines struct_ref).fields

theorem tcOf_sfs (ctx : InstCtx) (engines : Engines) (struct_ref : Nat)
    (fields : List StructExpressionField) (span : Span) :
    (tcOf ctx engines struct_ref fields span).2.1 =
      (get_struct engines struct_ref).fields.map (updField ctx.checkExpr fields) :=
  tcfaLoop_sfs ctx.checkExpr fields span (get_struct engines struct_ref).fields

theorem tcOf_missing_diags (ctx : InstCtx) (engines : Engines) (struct_ref : Nat)
    (fields : List StructExpressionField) (span : Span) :
    (tcOf ctx engines struct_ref fields span).2.2 =
      if struct_can_be_instantiated ctx.module_is_submodule_of
            (get_struct engines struct_ref).fields
          && !(missingNames (get_struct engines struct_ref) fields).isEmpty then
        [CompileError.StructInstantiationMissingFields
          (missingNames (get_struct engines struct_ref) fields)
          (get_struct engines struct_ref).call_path.suffix span
          (get_struct engines struct_ref).span
          (get_struct engines struct_ref).fields.length]
      else [] := by
  simp only [tcOf, type_check_field_arguments]
  simp only [tcfaLoop_missing, tcfaLoop_sfs, missingNames, List.length_map]

/-! ## Computation lemmas for `struct_instantiation` -/

theorem struct_instantiation_diags_eq (ctx : InstCtx) (engines : Engines)
    (struct_ref : Nat) (fields : List StructExpressionField) (span : Span) :
    (struct_instantiation ctx engines struct_ref fields span).diags =
      (tcOf ctx engines struct_ref fields span).2.2
      ++ (if !struct_can_be_instantiated ctx.module_is_submodule_of
              (get_struct engines struct_ref).fields then
            [CompileError.StructCannotBeInstantiated
              (get_struct engines struct_ref).call_path.suffix span
              (get_struct engines struct_ref).span
              (((tcOf ctx engines struct_ref fields span).2.1.filter fun field =>
                field.visibility == Visibility.Private).map fun field => field.name)
              ((tcOf ctx engines struct_ref fields span).2.1.all fun field =>
                field.visibility == Visibility.Private)
              (!ctx.module_is_external)]
          else [])
      ++ (uOf ctx engines struct_ref fields span).2
      ++ (if !(uOf ctx engines struct_ref fields span).1 then []
          else
            (if ctx.unifyOk (TypeInfo.StructTy struct_ref) ctx.type_annot then []
              else [CompileError.TypeMismatch span])
            ++ (fields.filterMap fun field =>
                if (tcOf ctx engines struct_ref fields span).2.1.any fun x =>
                    identEq x.name field.name then none
                else some (CompileError.StructDoesNotHaveField field.name
                  (get_struct engines struct_ref).call_path.suffix
                  field.name.span))
            ++ (if !ctx.module_is_submodule_of then
                  fields.filterMap fun field =>
                    match (tcOf ctx engines struct_ref fields span).2.1.find?
                        fun x => identEq x.name field.name with
                    | some ty_field =>
                      if ty_field.visibility == Visibility.Private then
                        some (CompileError.StructFieldIsPrivate field.name
                          (get_struct engines struct_ref).call_path.suffix
                          field.name.span ty_field.name.span false)
                      else none
                    | none => none
                else [])) := by
  simp only [struct_instantiation, tcOf, uOf]
  split
  next h => simp [h]
  next h => split <;> simp [h, List.append_assoc]

theorem struct_instantiation_result_eq (ctx : InstCtx) (engines : Engines)
    (struct_ref : Nat) (fields : List StructExpressionField) (span : Span) :
    (struct_instantiation ctx engines struct_ref fields span).result =
      if !(uOf ctx engines struct_ref fields span).1 then Except.error ()
      else if !ctx.boundsOk (TypeInfo.StructTy struct_ref) then Except.error ()
      else Except.ok ⟨struct_ref, (tcOf ctx engines struct_ref fields span).1,
        TypeInfo.StructTy struct_ref, span⟩ := by
  simp only [struct_instantiation, tcOf, uOf]
  split
  next h => simp [h]
  next h => split <;> simp [h, *]

theorem uOf_all_ok (ctx : InstCtx) (engines : Engines) (struct_ref : Nat)
    (fields : List StructExpressionField) (span : Span)
    (hU : ∀ a b, ctx.unifyWithGenericOk a b = true) :
    uOf ctx engines struct_ref fields span = (true, []) := by
  unfold uOf unify_field_arguments_and_struct_fields
  have hnil : ((tcOf ctx engines struct_ref fields span).2.1.filterMap
      fun struct_field =>
        match (tcOf ctx engines struct_ref fields span).1.find? fun x =>
            identEq x.name struct_field.name with
        | some typed_field =>
          if ctx.unifyWithGenericOk typed_field.value.return_type
              struct_field.type_argument.type_id then none
          else some (CompileError.TypeMismatch typed_field.value.span)
        | none => none) = [] := by
    rw [List.filterMap_eq_nil_iff]
    intro sf _
    cases hfind : (tcOf ctx engines struct_ref fields span).1.find? fun x =>
        identEq x.name sf.name with
    | none => rfl
    | some tf => simp [hU]
  simp [hnil]

/-! ## Preservation of names and visibility across the span-update channel -/

theorem map_updField_any_name (c : TypeInfo → Expr → Option TyExpression)
    (fs : List StructExpressionField) (l : List TyStructField) (n : Ident) :
    ((l.map (updField c fs)).any fun x => identEq x.name n)
      = l.any fun x => identEq x.name n := by
  induction l with
  | nil => rfl
  | cons a as ih => simp [List.any_cons, updField_name, ih]

theorem map_updField_find_name (c : TypeInfo → Expr → Option TyExpression)
    (fs : List StructExpressionField) (l : List TyStructField) (n : Ident) :
    ((l.map (updField c fs)).find? fun x => identEq x.name n)
      = (l.find? fun x => identEq x.name n).map (updField c fs) := by
  induction l with
  | nil => rfl
  | cons a as ih =>
    by_cases hx : identEq a.name n = true
    · simp [List.find?, updField_name, hx]
    · have hx' : identEq a.name n = false := by simpa using hx
      simp [List.find?, updField_name, hx', ih]

theorem map_updField_filter_priv_names (c : TypeInfo → Expr → Option TyExpression)
    (fs : List StructExpressionField) (l : List TyStructField) :
    (((l.map (updField c fs)).filter fun f =>
        f.visibility == Visibility.Private).map fun f => f.name)
      = ((l.filter fun f => f.visibility == Visibility.Private).map
          fun f => f.name) := by
  induction l with
  | nil => rfl
  | cons a as ih =>
    by_cases hv : (a.visibility == Visibility.Private) = true
    · simp [List.filter_cons, updField_visibility, updField_name, hv, ih]
    · have hv' : (a.visibility == Visibility.Private) = false := by simpa using hv
      simp [List.filter_cons, updField_visibility, updField_name, hv', ih]

theorem map_updField_all_priv (c : TypeInfo → Expr → Option TyExpression)
    (fs : List StructExpressionField) (l : List TyStructField) :
    ((l.map (updField c fs)).all fun f => f.visibility == Visibility.Private)
      = l.all fun f => f.visibility == Visibility.Private := by
  induction l with
  | nil => rfl
  | cons a as ih => simp [List.all_cons, updField_visibility, ih]

/-! ## Diagnostic-stream filtering helpers -/

theorem filter_filterMap_nil {β : Type _} {f : β → Option CompileError}
    {p : CompileError → Bool} (h : ∀ a c, f a = some c → p c = false)
    (l : List β) : (l.filterMap f).filter p = [] := by
  rw [List.filter_eq_nil_iff]
  intro c hc
  obtain ⟨a, _, hfa⟩ := List.mem_filterMap.mp hc
  simp [h a c hfa]

theorem filter_eq_self_of_pred {p : CompileError → Bool} {l : List CompileError}
    (h : ∀ c ∈ l, p c = true) : l.filter p = l :=
  List.filter_eq_self.mpr h

theorem filter_ite_singleton {p : CompileError → Bool} (q : Prop) [Decidable q]
    (c : CompileError) (hc : p c = false) :
    (if q then [c] else []).filter p = [] := by
  split <;> simp [hc]

theorem filter_ite_nil_singleton {p : CompileError → Bool} (q : Prop) [Decidable q]
    (c : CompileError) (hc : p c = false) :
    (if q then [] else [c]).filter p = [] := by
  split <;> simp [hc]

theorem missingSeg_filter (ctx : InstCtx) (engines : Engines) (struct_ref : Nat)
    (fields : List StructExpressionField) (span : Span) {p : CompileError → Bool}
    (hp : ∀ ns sn sp2 sd tot,
      p (CompileError.StructInstantiationMissingFields ns sn sp2 sd tot) = false) :
    ((tcOf ctx engines struct_ref fields span).2.2).filter p = [] := by
  rw [tcOf_missing_diags]
  exact filter_ite_singleton _ _ (hp _ _ _ _ _)

theorem uSeg_filter (ctx : InstCtx) (engines : Engines) (struct_ref : Nat)
    (fields : List StructExpressionField) (span : Span) {p : CompileError → Bool}
    (hp : ∀ s, p (CompileError.TypeMismatch s) = false) :
    ((uOf ctx engines struct_ref fields span).2).filter p = [] := by
  simp only [uOf, unify_field_arguments_and_struct_fields]
  apply filter_filterMap_nil
  intro a c hc
  revert hc
  cases hfind : (tcOf ctx engines struct_ref fields span).1.find? fun x =>
      identEq x.name a.name with
  | none => intro hc; simp at hc
  | some tf =>
    by_cases hok : ctx.unifyWithGenericOk tf.value.return_type
        a.type_argument.type_id = true
    · intro hc; simp [hok] at hc
    · intro hc
      have hok' : ctx.unifyWithGenericOk tf.value.return_type
          a.type_argument.type_id = false := by simpa using hok
      simp only [hok', Bool.false_eq_true, if_false, Option.some.injEq] at hc
      rw [← hc]
      exact hp _

theorem extraSeg_filter (ctx : InstCtx) (engines : Engines) (struct_ref : Nat)
    (fields : List StructExpressionField) (span : Span) {p : CompileError → Bool}
    (hp : ∀ fn sn sp2, p (CompileError.StructDoesNotHaveField fn sn sp2) = false) :
    ((fields.filterMap fun field =>
      if (tcOf ctx engines struct_ref fields span).2.1.any fun x =>
          identEq x.name field.name then none
      else some (CompileError.StructDoesNotHaveField field.name
        (get_struct engines struct_ref).call_path.suffix
        field.name.span)).filter p) = [] := by
  apply filter_filterMap_nil
  intro a c hc
  revert hc
  by_cases h : ((tcOf ctx engines struct_ref fields span).2.1.any fun x =>
      identEq x.name a.name) = true
  · intro hc; simp [h] at hc
  · have h' : ((tcOf ctx engines struct_ref fields span).2.1.any fun x =>
        identEq x.name a.name) = false := by simpa using h
    intro hc
    simp only [h', Bool.false_eq_true, if_false, Option.some.injEq] at hc
    rw [← hc]
    exact hp _ _ _

theorem privSeg_filter (ctx : InstCtx) (engines : Engines) (struct_ref : Nat)
    (fields : List StructExpressionField) (span : Span) {p : CompileError → Bool}
    (hp : ∀ fn sn sp2 fd ca,
      p (CompileError.StructFieldIsPrivate fn sn sp2 fd ca) = false) :
    ((if !ctx.module_is_submodule_of then
        fields.filterMap fun field =>
          match (tcOf ctx engines struct_ref fields span).2.1.find?
              fun x => identEq x.name field.name with
          | some ty_field =>
            if ty_field.visibility == Visibility.Private then
              some (CompileError.StructFieldIsPrivate field.name
                (get_struct engines struct_ref).call_path.suffix
                field.name.span ty_field.name.span false)
            else none
          | none => none
      else []).filter p) = [] := by
  split
  · apply filter_filterMap_nil
    intro a c hc
    revert hc
    cases hfind : (tcOf ctx engines struct_ref fields span).2.1.find? fun x =>
        identEq x.name a.name with
    | none => intro hc; simp at hc
    | some tf =>
      by_cases hv : (tf.visibility == Visibility.Private) = true
      · intro hc
        simp only [hv, if_true, Option.some.injEq] at hc
        rw [← hc]
        exact hp _ _ _ _ _
      · intro hc
        have hv' : (tf.visibility == Visibility.Private) = false := by simpa using hv
        simp [hv'] at hc
  · rfl

theorem cannotSeg_filter (ctx : InstCtx) (engines : Engines) (struct_ref : Nat)
    (fields : List StructExpressionField) (span : Span) {p : CompileError → Bool}
    (hp : ∀ sn sp2 sd pf ap ca,
      p (CompileError.StructCannotBeInstantiated sn sp2 sd pf ap ca) = false) :
    ((if !struct_can_be_instantiated ctx.module_is_submodule_of
          (get_struct engines struct_ref).fields then
        [CompileError.StructCannotBeInstantiated
          (get_struct engines struct_ref).call_path.suffix span
          (get_struct engines struct_ref).span
          (((tcOf ctx engines struct_ref fields span).2.1.filter fun field =>
            field.visibility == Visibility.Private).map fun field => field.name)
          ((tcOf ctx engines struct_ref fields span).2.1.all fun field =>
            field.visibility == Visibility.Private)
          (!ctx.module_is_external)]
      else []).filter p) = [] :=
  filter_ite_singleton _ _ (hp _ _ _ _ _ _)

theorem annotSeg_filter (ctx : InstCtx) (struct_ref : Nat) (span : Span)
    {p : CompileError → Bool} (hp : ∀ s, p (CompileError.TypeMismatch s) = false) :
    ((if ctx.unifyOk (TypeInfo.StructTy struct_ref) ctx.type_annot then []
      else [CompileError.TypeMismatch span]).filter p) = [] :=
  filter_ite_nil_singleton _ _ (hp _)

theorem restSeg_filter (ctx : InstCtx) (engines : Engines) (struct_ref : Nat)
    (fields : List StructExpressionField) (span : Span) {p : CompileError → Bool}
    (hpT : ∀ s, p (CompileError.TypeMismatch s) = false)
    (hpD : ∀ fn sn sp2, p (CompileError.StructDoesNotHaveField fn sn sp2) = false)
    (hpP : ∀ fn sn sp2 fd ca,
      p (CompileError.StructFieldIsPrivate fn sn sp2 fd ca) = false) :
    ((if !(uOf ctx engines struct_ref fields span).1 then []
      else
        (if ctx.unifyOk (TypeInfo.StructTy struct_ref) ctx.type_annot then []
          else [CompileError.TypeMismatch span])
        ++ (fields.filterMap fun field =>
            if (tcOf ctx engines struct_ref fields span).2.1.any fun x =>
                identEq x.name field.name then none
            else some (CompileError.StructDoesNotHaveField field.name
              (get_struct engines struct_ref).call_path.suffix
              field.name.span))
        ++ (if !ctx.module_is_submodule_of then
              fields.filterMap fun field =>
                match (tcOf ctx engines struct_ref fields span).2.1.find?
                    fun x => identEq x.name field.name with
                | some ty_field =>
                  if ty_field.visibility == Visibility.Private then
                    some (CompileError.StructFieldIsPrivate field.name
                      (get_struct engines struct_ref).call_path.suffix
                      field.name.span ty_field.name.span false)
                  else none
                | none => none
            else [])).filter p) = [] := by
  split
  · rfl
  · simp only [List.filter_append]
    rw [annotSeg_filter ctx struct_ref span hpT,
      extraSeg_filter ctx engines struct_ref fields span hpD,
      privSeg_filter ctx engines struct_ref fields span hpP]
    rfl

/-! ## Claim C1 -/

/-- C1: after the fields are scanned, if the struct is instantiable and some
declared field has no supplied value, exactly one aggregate missing-fields
diagnostic is emitted, listing every missing field name, the struct name and
the total number of declared fields; if the struct is not instantiable,
exactly one cannot-be-instantiated diagnostic is emitted (with the private
field names, the all-fields-private flag, and whether the declaring module is
local) and no missing-fields diagnostic is emitted, no matter how many fields
are missing. -/
theorem missing_fields_and_cannot_instantiate_diags (ctx : InstCtx)
    (engines : Engines) (struct_ref : Nat) (fields : List StructExpressionField)
    (span : Span) :
    ((struct_instantiation ctx engines struct_ref fields span).diags.filter
        isMissingFieldsDiag =
      if struct_can_be_instantiated ctx.module_is_submodule_of
            (get_struct engines struct_ref).fields
          && !(missingNames (get_struct engines struct_ref) fields).isEmpty then
        [CompileError.StructInstantiationMissingFields
          (missingNames (get_struct engines struct_ref) fields)
          (get_struct engines struct_ref).call_path.suffix span
          (get_struct engines struct_ref).span
          (get_struct engines struct_ref).fields.length]
      else [])
    ∧ ((struct_instantiation ctx engines struct_ref fields span).diags.filter
        isCannotBeInstantiatedDiag =
      if struct_can_be_instantiated ctx.module_is_submodule_of
          (get_struct engines struct_ref).fields then []
      else
        [CompileError.StructCannotBeInstantiated
          (get_struct engines struct_ref).call_path.suffix span
          (get_struct engines struct_ref).span
          (((get_struct engines struct_ref).fields.filter fun f =>
            f.visibility == Visibility.Private).map fun f => f.name)
          ((get_struct engines struct_ref).fields.all fun f =>
            f.visibility == Visibility.Private)
          (!ctx.module_is_external)]) := by
  constructor
  · rw [struct_instantiation_diags_eq]
    simp only [List.filter_append]
    rw [cannotSeg_filter ctx engines struct_ref fields span fun _ _ _ _ _ _ => rfl,
      uSeg_filter ctx engines struct_ref fields span fun _ => rfl,
      restSeg_filter ctx engines struct_ref fields span (fun _ => rfl)
        (fun _ _ _ => rfl) (fun _ _ _ _ _ => rfl)]
    simp only [List.append_nil]
    rw [tcOf_missing_diags]
    split <;> simp [isMissingFieldsDiag]
  · rw [struct_instantiation_diags_eq]
    simp only [List.filter_append]
    rw [missingSeg_filter ctx engines struct_ref fields span fun _ _ _ _ _ => rfl,
      uSeg_filter ctx engines struct_ref fields span fun _ => rfl,
      restSeg_filter ctx engines struct_ref fields span (fun _ => rfl)
        (fun _ _ _ => rfl) (fun _ _ _ _ _ => rfl)]
    simp only [List.append_nil, List.nil_append]
    rw [tcOf_sfs]
    rw [map_updField_filter_priv_names, map_updField_all_priv]
    cases hcbi : struct_can_be_instantiated ctx.module_is_submodule_of
        (get_struct engines struct_ref).fields
    · simp [isCannotBeInstantiatedDiag]
    · simp [isCannotBeInstantiatedDiag]

/-! ## Claims C7 and C8 -/

theorem filterMap_congr_fun {α β : Type _} {f g : α → Option β}
    (h : ∀ a, f a = g a) : ∀ l : List α, l.filterMap f = l.filterMap g
  | [] => rfl
  | a :: as => by
    simp [List.filterMap_cons, h a, filterMap_congr_fun h as]

/-- C7 counterexample: the unconditional claim fails when a per-field
unification fails.  Here the undeclared field `z` is supplied to `Point`
together with `x`, whose value checks to a type that does not unify with the
declared field type; the unification scope then fails, `struct_instantiation`
aborts before the extra-field check runs, and zero does-not-have-field
diagnostics are emitted for `z`. -/
theorem extra_field_diag_suppressed_on_unify_failure :
    ((get_struct sampleEngines 0).fields.any fun x =>
        identEq x.name (⟨"z", 24⟩ : Ident)) = false
    ∧ (struct_instantiation ctxUnifyFail sampleEngines 0
        [suppliedX, suppliedZ] 9).result = Except.error ()
    ∧ (struct_instantiation ctxUnifyFail sampleEngines 0
        [suppliedX, suppliedZ] 9).diags.filter isDoesNotHaveFieldDiag = [] :=
  ⟨rfl, rfl, rfl⟩

/-- C7 (amended): provided the per-field unification scope succeeds — the
condition under which checking proceeds past the field-unification step —
for every supplied field whose name matches no declared field, exactly one
does-not-have-field diagnostic naming that field and the struct is emitted,
one per supplied occurrence and none for matching names, regardless of the
instantiability outcome and of the missing-fields result, and without
stopping the checking of the remaining fields.  When a field unification
fails, the function instead aborts before the extra-field check and emits no
does-not-have-field diagnostic (see the counterexample). -/
theorem does_not_have_field_diags (ctx : InstCtx) (engines : Engines)
    (struct_ref : Nat) (fields : List StructExpressionField) (span : Span)
    (hU : ∀ a b, ctx.unifyWithGenericOk a b = true) :
    (struct_instantiation ctx engines struct_ref fields span).diags.filter
        isDoesNotHaveFieldDiag =
      fields.filterMap fun field =>
        if (get_struct engines struct_ref).fields.any fun x =>
            identEq x.name field.name then none
        else some (CompileError.StructDoesNotHaveField field.name
          (get_struct engines struct_ref).call_path.suffix field.name.span) := by
  rw [struct_instantiation_diags_eq,
    uOf_all_ok ctx engines struct_ref fields span hU]
  simp only [Bool.not_true, Bool.false_eq_true, if_false, List.filter_append,
    List.append_nil]
  rw [missingSeg_filter ctx engines struct_ref fields span
      (fun _ _ _ _ _ => rfl),
    cannotSeg_filter ctx engines struct_ref fields span
      (fun _ _ _ _ _ _ => rfl),
    annotSeg_filter ctx struct_ref span (fun _ => rfl),
    privSeg_filter ctx engines struct_ref fields span
      (fun _ _ _ _ _ => rfl)]
  simp only [List.nil_append, List.append_nil]
  have hall : ∀ c ∈ (fields.filterMap fun field =>
      if (tcOf ctx engines struct_ref fields span).2.1.any fun x =>
          identEq x.name field.name then none
      else some (CompileError.StructDoesNotHaveField field.name
        (get_struct engines struct_ref).call_path.suffix field.name.span)),
      isDoesNotHaveFieldDiag c = true := by
    intro c hc
    obtain ⟨a, _, hfa⟩ := List.mem_filterMap.mp hc
    revert hfa
    by_cases h : ((tcOf ctx engines struct_ref fields span).2.1.any fun x =>
        identEq x.name a.name) = true
    · intro hfa; simp [h] at hfa
    · have h' : ((tcOf ctx engines struct_ref fields span).2.1.any fun x =>
          identEq x.name a.name) = false := by simpa using h
      intro hfa
      simp only [h', Bool.false_eq_true, if_false, Option.some.injEq] at hfa
      rw [← hfa]
      rfl
  rw [filter_eq_self_of_pred hall, tcOf_sfs]
  simp only [map_updField_any_name]

/-- Witness for C7: supplying `x`, `y` and an undeclared `z` to `Point`
yields exactly one does-not-have-field diagnostic, for `z`. -/
theorem does_not_have_field_diags_witness :
    (struct_instantiation ctxAllOk sampleEngines 0
        [suppliedX, suppliedY, suppliedZ] 9).diags.filter
        isDoesNotHaveFieldDiag
      = [CompileError.StructDoesNotHaveField ⟨"z", 24⟩ ⟨"Point", 3⟩ 24] :=
  (does_not_have_field_diags ctxAllOk sampleEngines 0
    [suppliedX, suppliedY, suppliedZ] 9 (fun _ _ => rfl)).trans (by decide)

/-- C8 counterexample: the unconditional claim fails when a per-field
unification fails.  Here the private field `x` of `Point` is supplied from
outside the declaring module subtree, but its value checks to a type that
does not unify with the declared field type; the unification scope then
fails, `struct_instantiation` aborts before the private-field loop runs, and
zero field-is-private diagnostics are emitted. -/
theorem private_field_diag_suppressed_on_unify_failure :
    ((get_struct sampleEngines 0).fields.find? fun f =>
        identEq f.name (⟨"x", 20⟩ : Ident)) = some fieldX
    ∧ fieldX.visibility = Visibility.Private
    ∧ ctxUnifyFailOutside.module_is_submodule_of = false
    ∧ (struct_instantiation ctxUnifyFailOutside sampleEngines 0 [suppliedX]
        9).result = Except.error ()
    ∧ (struct_instantiation ctxUnifyFailOutside sampleEngines 0 [suppliedX]
        9).diags.filter isFieldIsPrivateDiag = [] :=
  ⟨rfl, rfl, rfl, rfl, rfl⟩

/-- C8 (amended): provided the per-field unification scope succeeds — the
condition under which checking proceeds past the field-unification step — a
field-is-private diagnostic is emitted exactly for each supplied field
matching a declared private field when the call site is outside the
declaring module subtree, naming the field and the struct and with the
adapt-the-struct suggestion suppressed, and never when the call site is
inside the subtree.  When a field unification fails, the function instead
aborts before the private-field loop and emits no field-is-private
diagnostic (see the counterexample). -/
theorem private_field_usage_diags (ctx : InstCtx) (engines : Engines)
    (struct_ref : Nat) (fields : List StructExpressionField) (span : Span)
    (hU : ∀ a b, ctx.unifyWithGenericOk a b = true) :
    (struct_instantiation ctx engines struct_ref fields span).diags.filter
        isFieldIsPrivateDiag =
      if ctx.module_is_submodule_of then []
      else
        fields.filterMap fun field =>
          match (get_struct engines struct_ref).fields.find? fun x =>
              identEq x.name field.name with
          | some ty_field =>
            if ty_field.visibility == Visibility.Private then
              some (CompileError.StructFieldIsPrivate field.name
                (get_struct engines struct_ref).call_path.suffix
                field.name.span ty_field.name.span false)
            else none
          | none => none := by
  rw [struct_instantiation_diags_eq,
    uOf_all_ok ctx engines struct_ref fields span hU]
  simp only [Bool.not_true, Bool.false_eq_true, if_false, List.filter_append,
    List.append_nil]
  rw [missingSeg_filter ctx engines struct_ref fields span
      (fun _ _ _ _ _ => rfl),
    cannotSeg_filter ctx engines struct_ref fields span
      (fun _ _ _ _ _ _ => rfl),
    annotSeg_filter ctx struct_ref span (fun _ => rfl),
    extraSeg_filter ctx engines struct_ref fields span (fun _ _ _ => rfl)]
  simp only [List.nil_append]
  cases hsub : ctx.module_is_submodule_of
  · simp only [Bool.not_false, if_true, if_false]
    have hall : ∀ c ∈ (fields.filterMap fun field =>
        match (tcOf ctx engines struct_ref fields span).2.1.find? fun x =>
            identEq x.name field.name with
        | some ty_field =>
          if ty_field.visibility == Visibility.Private then
            some (CompileError.StructFieldIsPrivate field.name
              (get_struct engines struct_ref).call_path.suffix
              field.name.span ty_field.name.span false)
          else none
        | none => none), isFieldIsPrivateDiag c = true := by
      intro c hc
      obtain ⟨a, _, hfa⟩ := List.mem_filterMap.mp hc
      revert hfa
      cases hfind : (tcOf ctx engines struct_ref fields span).2.1.find? fun x =>
          identEq x.name a.name with
      | none => intro hfa; simp at hfa
      | some tf =>
        by_cases hv : (tf.visibility == Visibility.Private) = true
        · intro hfa
          simp only [hv, if_true, Option.some.injEq] at hfa
          rw [← hfa]
          rfl
        · have hv' : (tf.visibility == Visibility.Private) = false := by
            simpa using hv
          intro hfa
          simp [hv'] at hfa
    rw [filter_eq_self_of_pred hall]
    apply filterMap_congr_fun
    intro a
    rw [tcOf_sfs, map_updField_find_name]
    cases hfind : (get_struct engines struct_ref).fields.find? fun x =>
        identEq x.name a.name with
    | none => rfl
    | some tf =>
      simp only [Option.map_some']
      rw [updField_visibility, updField_name]
  · simp [hsub]

/-- Witness for C8: supplying the private field `x` to `Point` from outside
its declaring module subtree yields exactly one field-is-private diagnostic
with the adapt suggestion suppressed. -/
theorem private_field_usage_diags_witness :
    (struct_instantiation ctxOutside sampleEngines 0 [suppliedX] 9).diags.filter
        isFieldIsPrivateDiag
      = [CompileError.StructFieldIsPrivate ⟨"x", 20⟩ ⟨"Point", 3⟩ 20 10 false] :=
  (private_field_usage_diags ctxOutside sampleEngines 0 [suppliedX] 9
    (fun _ _ => rfl)).trans (by decide)

/-! ## Claim C4 -/

theorem filterMap_eq_map_of_forall_some {α β : Type _} {f : α → Option β}
    {g : α → β} (h : ∀ a, f a = some (g a)) :
    ∀ l : List α, l.filterMap f = l.map g
  | [] => rfl
  | a :: as => by
    simp [List.filterMap_cons, h a, filterMap_eq_map_of_forall_some h as]

/-- C4 counterexample: when a supplied field value fails its nested type
check, the loop skips the field without pushing a typed entry or a
placeholder, yet `struct_instantiation` still completes successfully — here
both declared fields of `Point` are supplied, both value checks fail, and
the produced node's field list is empty while the declaration has two
fields, so the output field list is not always complete. -/
theorem incomplete_field_list_on_failed_value_check :
    (struct_instantiation ctxFailValue sampleEngines 0 [suppliedX, suppliedY]
        9).result
      = Except.ok ⟨0, [], TypeInfo.StructTy 0, 9⟩
    ∧ (get_struct sampleEngines 0).fields.length = 2 :=
  ⟨rfl, rfl⟩

/-- C4 (amended): whenever `struct_instantiation` completes successfully AND
every supplied field value passes its nested type check, the produced node's
field list has exactly one entry per declared field, in declaration order:
the checked supplied value where one matches by name, and an error-recovery
placeholder where the field is missing.  A declared field whose supplied
value fails its nested check contributes no entry (see the counterexample),
which is the only divergence from the original claim. -/
theorem complete_field_list_when_values_check (ctx : InstCtx)
    (engines : Engines) (struct_ref : Nat)
    (fields : List StructExpressionField) (span : Span) (r : StructInstResult)
    (hC : ∀ t ex, (ctx.checkExpr t ex).isSome = true)
    (hr : (struct_instantiation ctx engines struct_ref fields span).result
      = Except.ok r) :
    r.fields = (get_struct engines struct_ref).fields.map
        (checkedOrPlaceholder ctx fields span)
      ∧ r.fields.length = (get_struct engines struct_ref).fields.length := by
  rw [struct_instantiation_result_eq] at hr
  split at hr
  · exact absurd hr (by simp)
  · split at hr
    · exact absurd hr (by simp)
    · injection hr with hr
      subst hr
      have hflds : (tcOf ctx engines struct_ref fields span).1 =
          (get_struct engines struct_ref).fields.map
            (checkedOrPlaceholder ctx fields span) := by
        rw [tcOf_typed]
        apply filterMap_eq_map_of_forall_some
        intro sf
        unfold checkedOrPlaceholder
        cases hf : fields.find? fun x => identEq x.name sf.name with
        | none => rfl
        | some f =>
          cases hc : ctx.checkExpr sf.type_argument.type_id f.value with
          | none =>
            have := hC sf.type_argument.type_id f.value
            rw [hc] at this
            simp at this
          | some v => simp [hc]
      exact ⟨hflds, by rw [hflds, List.length_map]⟩

/-- Witness for the amended C4: with both fields of `Point` supplied and
every nested check succeeding, the produced field list is exactly one
checked entry per declared field. -/
theorem complete_field_list_when_values_check_witness :
    resultXY.fields = (get_struct sampleEngines 0).fields.map
        (checkedOrPlaceholder ctxAllOk [suppliedX, suppliedY] 9)
      ∧ resultXY.fields.length = (get_struct sampleEngines 0).fields.length :=
  complete_field_list_when_values_check ctxAllOk sampleEngines 0
    [suppliedX, suppliedY] 9 resultXY (fun _ _ => rfl) rfl

end Sway
